import Mathlib

/-!
Verification of `rl_coach/graph_managers/hac_graph_manager.py`
(`HACGraphManager.__init__` and `HACGraphManager._create_graph`).

The embedding is shallow: the collaborating framework objects
(visualization parameters, schedule parameters, task parameters, data
filters, environments, agents) are opaque records carrying only the data
the HAC graph manager reads or writes.  Python's in-place mutation of the
supplied `agents_params` list is modelled by returning, on the error path,
the state of that list at the moment the exception is raised; on the
success path the mutated list is stored in the resulting manager, exactly
as the Python object keeps `self.agents_params`.
-/

namespace RLCoach

/-- `EnvironmentSteps(n)` from `rl_coach.core_types`: a step-count duration. -/
structure EnvironmentSteps where
  num_steps : Nat
deriving DecidableEq, Repr

/-- An opaque observation/action filter object.  `default_input_filter()` /
`default_output_filter()` on the environment parameters return such a value. -/
structure DataFilter where
  fid : Nat
deriving DecidableEq, Repr

/-- Opaque `VisualizationParameters`. -/
structure VisualizationParameters where
  vid : Nat
deriving DecidableEq, Repr

/-- Opaque `TaskParameters`. -/
structure TaskParameters where
  tid : Nat
deriving DecidableEq, Repr

/-- Opaque `ScheduleParameters`. -/
structure ScheduleParameters where
  sid : Nat
deriving DecidableEq, Repr

/-- The fields of `EnvironmentParameters` the HAC graph manager reads:
the dynamic-import `path` and the two default-filter factories (modelled as
the values those factories produce). -/
structure EnvironmentParameters where
  path : String
  default_input_filter : DataFilter
  default_output_filter : DataFilter
deriving DecidableEq, Repr

/-- The fields of `AgentParameters` the HAC graph manager reads or writes. -/
structure AgentParameters where
  path : String
  visualization : Option VisualizationParameters
  input_filter : Option DataFilter
  output_filter : Option DataFilter
  task_parameters : Option TaskParameters
  name : String
  is_a_highest_level_agent : Bool
  is_a_lowest_level_agent : Bool
deriving DecidableEq, Repr

/-- The `consecutive_steps_to_run_non_top_levels` argument of
`HACGraphManager.__init__`: annotated `Union[EnvironmentSteps,
List[EnvironmentSteps]]`, but Python enforces nothing, so a third
constructor stands for any value that is neither a list nor an
`EnvironmentSteps` (the constructor's `isinstance` checks both fail on it). -/
inductive StepsToRun where
  | scalar (steps : EnvironmentSteps)
  | perLevel (steps : List EnvironmentSteps)
  | otherValue
deriving DecidableEq, Repr

/-- The environment instance produced by
`short_dynamic_import(self.env_params.path)(**self.env_params.__dict__,
visualization_parameters=self.visualization_parameters)`: determined by the
environment parameters and the visualization parameters. -/
structure Environment where
  env_params : EnvironmentParameters
  visualization_parameters : VisualizationParameters
deriving DecidableEq, Repr

/-- The agent instance produced by
`short_dynamic_import(agent_params.path)(agent_params)`. -/
structure Agent where
  params : AgentParameters
deriving DecidableEq, Repr

/-- The state of a `HACGraphManager` after `__init__` returns. -/
structure HACGraphManager where
  name : String
  schedule_params : ScheduleParameters
  visualization_parameters : VisualizationParameters
  agents_params : List AgentParameters
  env_params : EnvironmentParameters
  should_test_current_sub_goal : Option Bool
  /-- `none` models the Python attribute being unset (the `elif` branch of
  `__init__` assigns it only when a scalar `EnvironmentSteps` was passed). -/
  consecutive_steps_to_run_non_top_levels : Option EnvironmentSteps
deriving DecidableEq, Repr

/-- The two `ValueError`s `__init__` can raise. -/
inductive InitError where
  | listLengthMismatch
  | tooFewLevels
deriving DecidableEq, Repr

/-- One iteration of the default-filling loop in `__init__`:
`agent_params.visualization = self.visualization_parameters`, then back-fill
`input_filter` / `output_filter` from the environment defaults when `None`. -/
def applyDefaults (vis : VisualizationParameters) (env_params : EnvironmentParameters)
    (a : AgentParameters) : AgentParameters :=
  let a1 := { a with visualization := some vis }
  let a2 :=
    match a1.input_filter with
    | none => { a1 with input_filter := some env_params.default_input_filter }
    | some _ => a1
  match a2.output_filter with
  | none => { a2 with output_filter := some env_params.default_output_filter }
  | some _ => a2

/-- The tail of `__init__` after the `isinstance` dispatch: run the
default-filling loop over `agents_params`, then raise when fewer than two
levels were supplied, else return the constructed manager.  `stored` is the
value (if any) the dispatch assigned to
`consecutive_steps_to_run_non_top_levels`.  On the error path the second
component is the caller-visible state of the (in-place mutated) agent
parameter list at the moment the exception is raised. -/
def hacInitDefaults (agents_params : List AgentParameters)
    (env_params : EnvironmentParameters) (schedule_params : ScheduleParameters)
    (vis_params : VisualizationParameters) (stored : Option EnvironmentSteps) :
    Except (InitError × List AgentParameters) HACGraphManager :=
  let updated := agents_params.map (applyDefaults vis_params env_params)
  if agents_params.length < 2 then
    .error (.tooFewLevels, updated)
  else
    .ok { name := "hac_graph"
          schedule_params := schedule_params
          visualization_parameters := vis_params
          agents_params := updated
          env_params := env_params
          should_test_current_sub_goal := none
          consecutive_steps_to_run_non_top_levels := stored }

/-- `HACGraphManager.__init__`.  The `isinstance` dispatch: a list whose
length differs from `agents_params` raises immediately (before any mutation);
a matching-length list falls through WITHOUT storing anything; a scalar
`EnvironmentSteps` is stored; any other value falls through silently. -/
def hacInit (agents_params : List AgentParameters) (env_params : EnvironmentParameters)
    (schedule_params : ScheduleParameters) (vis_params : VisualizationParameters)
    (consecutive : StepsToRun) :
    Except (InitError × List AgentParameters) HACGraphManager :=
  match consecutive with
  | .perLevel l =>
    if l.length ≠ agents_params.length then
      .error (.listLengthMismatch, agents_params)
    else
      hacInitDefaults agents_params env_params schedule_params vis_params none
  | .scalar s =>
    hacInitDefaults agents_params env_params schedule_params vis_params (some s)
  | .otherValue =>
    hacInitDefaults agents_params env_params schedule_params vis_params none

/-- A `LevelManager` as constructed by `_create_graph`: the keyword arguments
of the `LevelManager(...)` call.  `environment` is the "lower environment":
either the true environment (bottom level) or the level manager beneath. -/
inductive LevelManager : Type where
  | mk (agents : Agent) (environment : Environment ⊕ LevelManager)
      (real_environment : Environment) (steps_limit : EnvironmentSteps)
      (should_reset_agent_state_after_time_limit_passes : Bool)
      (name : String) : LevelManager

def LevelManager.agents : LevelManager → Agent
  | .mk a _ _ _ _ _ => a

def LevelManager.environment : LevelManager → Environment ⊕ LevelManager
  | .mk _ e _ _ _ _ => e

def LevelManager.real_environment : LevelManager → Environment
  | .mk _ _ r _ _ _ => r

def LevelManager.steps_limit : LevelManager → EnvironmentSteps
  | .mk _ _ _ s _ _ => s

def LevelManager.should_reset_agent_state_after_time_limit_passes :
    LevelManager → Bool
  | .mk _ _ _ _ b _ => b

def LevelManager.name : LevelManager → String
  | .mk _ _ _ _ _ n => n

/-- The one runtime failure `_create_graph` can hit in this model: reading
`self.consecutive_steps_to_run_non_top_levels` when `__init__` never assigned
it (Python raises `AttributeError`). -/
inductive CreateError where
  | missingConsecutiveSteps
deriving DecidableEq, Repr

/-- The `steps_limit` argument of the `LevelManager` call:
`EnvironmentSteps(1) if level_idx == 0 else
self.consecutive_steps_to_run_non_top_levels`, with the attribute read
failing when the field was never assigned. -/
def stepsLimitFor (m : HACGraphManager) (level_idx : Nat) :
    Except CreateError EnvironmentSteps :=
  if level_idx = 0 then .ok { num_steps := 1 }
  else
    match m.consecutive_steps_to_run_non_top_levels with
    | some s => .ok s
    | none => .error .missingConsecutiveSteps

/-- The body of one loop iteration of `_create_graph` up to the
`LevelManager(...)` call: rename the agent parameters, set the
highest/lowest flags, instantiate the agent, build the level manager. -/
def mkLevelManager (env : Environment) (total level_idx : Nat)
    (agent_params : AgentParameters) (current_env : Environment ⊕ LevelManager)
    (sl : EnvironmentSteps) : LevelManager :=
  .mk { params := { agent_params with
          name := "agent_" ++ toString level_idx
          is_a_highest_level_agent := level_idx == 0
          is_a_lowest_level_agent := level_idx == total - 1 } }
    current_env env sl (decide (level_idx > 0)) ("level_" ++ toString level_idx)

/-- `reversed(list(enumerate(xs)))`: the index/value pairs of `xs` in
descending index order. -/
def descEnum (xs : List α) : List (Nat × α) := (List.enum xs).reverse

/-- The `for level_idx, agent_params in reversed(list(enumerate(...)))` loop
of `_create_graph`.  `acc` is `level_managers` (each new manager is
`insert(0, ...)`-ed, i.e. prepended), `current_env` is `current_env`. -/
def buildLevels (m : HACGraphManager) (env : Environment) (total : Nat) :
    List (Nat × AgentParameters) → (Environment ⊕ LevelManager) →
      List LevelManager → Except CreateError (List LevelManager)
  | [], _, acc => .ok acc
  | (level_idx, agent_params) :: rest, current_env, acc =>
    match stepsLimitFor m level_idx with
    | .error e => .error e
    | .ok sl =>
      buildLevels m env total rest
        (.inr (mkLevelManager env total level_idx agent_params current_env sl))
        (mkLevelManager env total level_idx agent_params current_env sl :: acc)

/-- The environment instantiation at the top of `_create_graph`. -/
def instantiateEnv (m : HACGraphManager) : Environment :=
  { env_params := m.env_params
    visualization_parameters := m.visualization_parameters }

/-- `HACGraphManager._create_graph`: instantiate the environment, propagate
the task parameters onto every agent configuration, build the hierarchy
bottom-up, and return the level managers (top first) with the singleton
environment list. -/
def createGraph (m : HACGraphManager) (task_parameters : TaskParameters) :
    Except CreateError (List LevelManager × List Environment) :=
  let env := instantiateEnv m
  let agents_params := m.agents_params.map
    (fun a => { a with task_parameters := some task_parameters })
  match buildLevels m env m.agents_params.length (descEnum agents_params)
      (.inl env) [] with
  | .error e => .error e
  | .ok level_managers => .ok (level_managers, [env])

/-! ### Helper lemmas -/

theorem applyDefaults_visualization (v : VisualizationParameters)
    (e : EnvironmentParameters) (a : AgentParameters) :
    (applyDefaults v e a).visualization = some v := by
  unfold applyDefaults
  cases h1 : a.input_filter <;> cases h2 : a.output_filter <;> simp [h1, h2]

theorem applyDefaults_input (v : VisualizationParameters)
    (e : EnvironmentParameters) (a : AgentParameters) :
    (applyDefaults v e a).input_filter =
      some (a.input_filter.getD e.default_input_filter) := by
  unfold applyDefaults
  cases h1 : a.input_filter <;> cases h2 : a.output_filter <;> simp [h1, h2]

theorem applyDefaults_output (v : VisualizationParameters)
    (e : EnvironmentParameters) (a : AgentParameters) :
    (applyDefaults v e a).output_filter =
      some (a.output_filter.getD e.default_output_filter) := by
  unfold applyDefaults
  cases h1 : a.input_filter <;> cases h2 : a.output_filter <;> simp [h1, h2]

/-- Characterization of a successful `__init__`: the stored fields and the
facts validation established. -/
theorem hacInit_ok_spec (a : List AgentParameters) (e : EnvironmentParameters)
    (sp : ScheduleParameters) (v : VisualizationParameters) (c : StepsToRun)
    (m : HACGraphManager) (h : hacInit a e sp v c = .ok m) :
    m.name = "hac_graph" ∧ m.schedule_params = sp ∧
    m.visualization_parameters = v ∧
    m.agents_params = a.map (applyDefaults v e) ∧ m.env_params = e ∧
    2 ≤ a.length := by
  have step : ∀ stored,
      hacInitDefaults a e sp v stored = .ok m →
      m.name = "hac_graph" ∧ m.schedule_params = sp ∧
      m.visualization_parameters = v ∧
      m.agents_params = a.map (applyDefaults v e) ∧ m.env_params = e ∧
      2 ≤ a.length := by
    intro stored hd
    simp only [hacInitDefaults] at hd
    split at hd
    · exact absurd hd (by simp)
    · injection hd with hd
      subst hd
      simp_all [Nat.not_lt]
  cases c with
  | scalar s => exact step (some s) h
  | perLevel l =>
    simp only [hacInit] at h
    split at h
    · exact absurd h (by simp)
    · exact step none h
  | otherValue => exact step none h

/-- `reversed(list(enumerate(...)))` distributes over appending one element. -/
theorem enumFrom_concat (n : Nat) (xs : List α) (x : α) :
    List.enumFrom n (xs ++ [x]) = List.enumFrom n xs ++ [(n + xs.length, x)] := by
  induction xs generalizing n with
  | nil => simp [List.enumFrom]
  | cons y ys ih =>
    have hn : n + 1 + ys.length = n + (ys.length + 1) := by omega
    simp only [List.cons_append, List.enumFrom, List.append_eq, ih,
      List.length_cons, hn]

theorem descEnum_nil : descEnum ([] : List α) = [] := rfl

theorem descEnum_concat (xs : List α) (x : α) :
    descEnum (xs ++ [x]) = (xs.length, x) :: descEnum xs := by
  simp [descEnum, List.enum, enumFrom_concat]

/-- The accumulator of the build loop only ever gets appended on the right:
running with accumulator `acc` is running with `[]` and appending `acc`. -/
theorem buildLevels_acc (m : HACGraphManager) (env : Environment) (total : Nat)
    (ps : List (Nat × AgentParameters)) :
    ∀ (cur : Environment ⊕ LevelManager) (acc : List LevelManager),
    buildLevels m env total ps cur acc =
      (buildLevels m env total ps cur []).map (fun t => t ++ acc) := by
  induction ps with
  | nil => intro cur acc; simp [buildLevels, Except.map]
  | cons p rest ih =>
    intro cur acc
    obtain ⟨i, ap⟩ := p
    simp only [buildLevels]
    cases hs : stepsLimitFor m i with
    | error e => simp [Except.map]
    | ok sl =>
      dsimp only
      rw [ih, ih (.inr (mkLevelManager env total i ap cur sl))
        [mkLevelManager env total i ap cur sl]]
      cases buildLevels m env total rest
          (.inr (mkLevelManager env total i ap cur sl)) [] with
      | error e => simp [Except.map]
      | ok t => simp [Except.map]

/-- Master characterization of the build loop on the descending enumeration
of an agent list: position `i` of the result (top level first) is the level
manager for level index `i`, carrying the root environment, the
reset-on-timeout flag `i > 0`, the step budget chosen by `stepsLimitFor`,
the name `level_i`, and bound below to the next entry (or to `cur` for the
last entry). -/
theorem buildLevels_ok_spec (m : HACGraphManager) (env : Environment)
    (total : Nat) (as : List AgentParameters) :
    ∀ (cur : Environment ⊕ LevelManager) (lms : List LevelManager),
    buildLevels m env total (descEnum as) cur [] = .ok lms →
    lms.length = as.length ∧
    ∀ i lm, lms[i]? = some lm →
      lm.real_environment = env ∧
      lm.should_reset_agent_state_after_time_limit_passes = decide (0 < i) ∧
      stepsLimitFor m i = .ok lm.steps_limit ∧
      lm.name = "level_" ++ toString i ∧
      lm.environment = (match lms[i + 1]? with
        | some lm2 => Sum.inr lm2
        | none => cur) := by
  induction as using List.reverseRecOn with
  | nil =>
    intro cur lms h
    simp only [descEnum_nil, buildLevels] at h
    injection h with h
    subst h
    simp
  | append_singleton xs x ih =>
    intro cur lms h
    rw [descEnum_concat] at h
    simp only [buildLevels] at h
    cases hs : stepsLimitFor m xs.length with
    | error e => rw [hs] at h; exact absurd h (by simp)
    | ok sl =>
      rw [hs] at h
      dsimp only at h
      rw [buildLevels_acc] at h
      cases hb : buildLevels m env total (descEnum xs)
          (.inr (mkLevelManager env total xs.length x cur sl)) [] with
      | error e => rw [hb] at h; exact absurd h (by simp [Except.map])
      | ok lms0 =>
        rw [hb] at h
        simp only [Except.map] at h
        injection h with h
        subst h
        obtain ⟨hlen0, hprops0⟩ :=
          ih (.inr (mkLevelManager env total xs.length x cur sl)) lms0 hb
        refine ⟨by simp [hlen0], ?_⟩
        intro i lm hi
        rcases Nat.lt_trichotomy i lms0.length with hilt | hieq | higt
        · -- the entry comes from the recursive result
          rw [List.getElem?_append_left hilt] at hi
          obtain ⟨h1, h2, h3, h4, h5⟩ := hprops0 i lm hi
          refine ⟨h1, h2, h3, h4, ?_⟩
          rcases Nat.lt_or_ge (i + 1) lms0.length with hsl | hsge
          · rw [List.getElem?_append_left hsl, List.getElem?_eq_getElem hsl]
            rw [List.getElem?_eq_getElem hsl] at h5
            exact h5
          · have hseq : i + 1 = lms0.length := by omega
            rw [List.getElem?_append_right hsge, hseq]
            simp only [Nat.sub_self, List.getElem?_cons_zero]
            rw [List.getElem?_eq_none_iff.mpr (by omega : lms0.length ≤ i + 1)] at h5
            exact h5
        · -- the entry is the freshly built bottom level manager
          subst hieq
          rw [List.getElem?_append_right (Nat.le_refl _)] at hi
          simp only [Nat.sub_self, List.getElem?_cons_zero] at hi
          injection hi with hi
          subst hi
          refine ⟨rfl, ?_, ?_, ?_, ?_⟩
          · simp [mkLevelManager, LevelManager.should_reset_agent_state_after_time_limit_passes, hlen0]
          · rw [hlen0]
            simp [mkLevelManager, LevelManager.steps_limit, hs]
          · simp [mkLevelManager, LevelManager.name, hlen0]
          · rw [List.getElem?_eq_none_iff.mpr (by simp [hlen0] : (lms0 ++ [mkLevelManager env total xs.length x cur sl]).length ≤ lms0.length + 1)]
            simp [mkLevelManager, LevelManager.environment]
        · -- out of range
          rw [List.getElem?_eq_none_iff.mpr (by simp [hlen0]; omega : (lms0 ++ [mkLevelManager env total xs.length x cur sl]).length ≤ i)] at hi
          exact absurd hi (by simp)

/-- Characterization of a successful `_create_graph`. -/
theorem createGraph_ok_spec (m : HACGraphManager) (tp : TaskParameters)
    (lms : List LevelManager) (envs : List Environment)
    (h : createGraph m tp = .ok (lms, envs)) :
    envs = [instantiateEnv m] ∧
    lms.length = m.agents_params.length ∧
    ∀ i lm, lms[i]? = some lm →
      lm.real_environment = instantiateEnv m ∧
      lm.should_reset_agent_state_after_time_limit_passes = decide (0 < i) ∧
      stepsLimitFor m i = .ok lm.steps_limit ∧
      lm.name = "level_" ++ toString i ∧
      lm.environment = (match lms[i + 1]? with
        | some lm2 => Sum.inr lm2
        | none => Sum.inl (instantiateEnv m)) := by
  simp only [createGraph] at h
  cases hb : buildLevels m (instantiateEnv m) m.agents_params.length
      (descEnum (m.agents_params.map
        (fun a => { a with task_parameters := some tp })))
      (.inl (instantiateEnv m)) [] with
  | error e => rw [hb] at h; exact absurd h (by simp)
  | ok lms0 =>
    rw [hb] at h
    dsimp only at h
    injection h with h
    injection h with hl he
    subst hl
    subst he
    obtain ⟨hlen, hprops⟩ := buildLevels_ok_spec m (instantiateEnv m)
      m.agents_params.length
      (m.agents_params.map (fun a => { a with task_parameters := some tp }))
      (.inl (instantiateEnv m)) lms0 hb
    exact ⟨rfl, by simpa using hlen, hprops⟩

/-- When `__init__` never assigned `consecutive_steps_to_run_non_top_levels`
and there are at least two levels, `_create_graph` fails at the very first
(bottom) level manager: its `steps_limit` argument reads the missing
attribute. -/
theorem createGraph_missing_attribute (m : HACGraphManager)
    (tp : TaskParameters)
    (hnone : m.consecutive_steps_to_run_non_top_levels = none)
    (h2 : 2 ≤ m.agents_params.length) :
    createGraph m tp = .error .missingConsecutiveSteps := by
  rcases List.eq_nil_or_concat
      (m.agents_params.map (fun a => { a with task_parameters := some tp }))
    with hnil | ⟨ys, y, hysy⟩
  · exfalso
    have hlen := congrArg List.length hnil
    simp only [List.length_map, List.length_nil] at hlen
    omega
  · simp only [List.concat_eq_append] at hysy
    have hys : ys.length ≠ 0 := by
      have hlen := congrArg List.length hysy
      simp only [List.length_map, List.length_append, List.length_cons,
        List.length_nil] at hlen
      omega
    simp only [createGraph, hysy, descEnum_concat, buildLevels, stepsLimitFor,
      hys, if_false, hnone]

/-! ### Concrete sample configuration used by the witnesses -/

def sEnvP : EnvironmentParameters :=
  { path := "rl_coach.environments.gym_environment:GymEnvironment"
    default_input_filter := { fid := 1 }
    default_output_filter := { fid := 2 } }

def sAgentTop : AgentParameters :=
  { path := "rl_coach.agents.hac_ddpg_agent:HACDDPGAgent"
    visualization := none
    input_filter := none
    output_filter := none
    task_parameters := none
    name := "top"
    is_a_highest_level_agent := false
    is_a_lowest_level_agent := false }

def sAgentBottom : AgentParameters :=
  { sAgentTop with name := "bottom", input_filter := some { fid := 30 } }

def sAgents : List AgentParameters := [sAgentTop, sAgentBottom]

def sSched : ScheduleParameters := { sid := 0 }

def sVis : VisualizationParameters := { vid := 7 }

def sSteps : EnvironmentSteps := { num_steps := 40 }

def sTask : TaskParameters := { tid := 3 }

def dummyManager : HACGraphManager :=
  { name := ""
    schedule_params := sSched
    visualization_parameters := sVis
    agents_params := []
    env_params := sEnvP
    should_test_current_sub_goal := none
    consecutive_steps_to_run_non_top_levels := none }

/-- The manager produced by `__init__` on the sample input with a scalar
(shared) duration. -/
def sM : HACGraphManager :=
  match hacInit sAgents sEnvP sSched sVis (.scalar sSteps) with
  | .ok m => m
  | .error _ => dummyManager

/-- The level-manager list `_create_graph` returns on the sample input. -/
def sLMs : List LevelManager :=
  match createGraph sM sTask with
  | .ok (lms, _) => lms
  | .error _ => []

def dummyLM : LevelManager :=
  .mk { params := sAgentTop } (.inl (instantiateEnv sM)) (instantiateEnv sM)
    { num_steps := 0 } false "dummy"

def sLM0 : LevelManager :=
  match sLMs[0]? with
  | some lm => lm
  | none => dummyLM

def sLM1 : LevelManager :=
  match sLMs[1]? with
  | some lm => lm
  | none => dummyLM

/-- The manager produced by `__init__` on the sample input with a
matching-length per-level duration LIST. -/
def c1M : HACGraphManager :=
  match hacInit sAgents sEnvP sSched sVis (.perLevel [sSteps, sSteps]) with
  | .ok m => m
  | .error _ => dummyManager

/-! ### Claims -/

/-- C2: for every input whose list of per-level agent configurations has
fewer than 2 entries, constructing the HAC graph manager fails with a
configuration error (`ValueError`); it never completes construction. -/
theorem hac_C2_too_few_levels_fails (agents_params : List AgentParameters)
    (env_params : EnvironmentParameters) (schedule_params : ScheduleParameters)
    (vis_params : VisualizationParameters) (consecutive : StepsToRun)
    (h : agents_params.length < 2) :
    ∃ err, hacInit agents_params env_params schedule_params vis_params
      consecutive = .error err := by
  cases consecutive with
  | scalar s =>
    exact ⟨(.tooFewLevels, agents_params.map (applyDefaults vis_params env_params)),
      by simp [hacInit, hacInitDefaults, h]⟩
  | perLevel l =>
    by_cases hl : l.length = agents_params.length
    · exact ⟨(.tooFewLevels, agents_params.map (applyDefaults vis_params env_params)),
        by simp [hacInit, hacInitDefaults, hl, h]⟩
    · exact ⟨(.listLengthMismatch, agents_params), by simp [hacInit, hl]⟩
  | otherValue =>
    exact ⟨(.tooFewLevels, agents_params.map (applyDefaults vis_params env_params)),
      by simp [hacInit, hacInitDefaults, h]⟩

theorem hac_C2_witness :
    ([sAgentTop] : List AgentParameters).length < 2 ∧
    ∃ err, hacInit [sAgentTop] sEnvP sSched sVis (.scalar sSteps) =
      .error err :=
  ⟨by decide,
   hac_C2_too_few_levels_fails [sAgentTop] sEnvP sSched sVis (.scalar sSteps)
     (by decide)⟩

/-- C3: a per-level duration supplied as a list whose length differs from
the number of agent configurations makes construction fail with the
list-length `ValueError`; when the lengths agree this check does not
raise. -/
theorem hac_C3_duration_list_length_check (agents_params : List AgentParameters)
    (env_params : EnvironmentParameters) (schedule_params : ScheduleParameters)
    (vis_params : VisualizationParameters) (l : List EnvironmentSteps) :
    (l.length ≠ agents_params.length →
      hacInit agents_params env_params schedule_params vis_params
        (.perLevel l) = .error (.listLengthMismatch, agents_params)) ∧
    (l.length = agents_params.length →
      ∀ ms, hacInit agents_params env_params schedule_params vis_params
        (.perLevel l) ≠ .error (.listLengthMismatch, ms)) := by
  constructor
  · intro hne
    simp [hacInit, hne]
  · intro heq ms hcontra
    simp only [hacInit, heq, ne_eq, not_true_eq_false, if_false,
      hacInitDefaults] at hcontra
    split at hcontra
    · simp at hcontra
    · simp at hcontra

theorem hac_C3_witness :
    (([sSteps] : List EnvironmentSteps).length ≠ sAgents.length) ∧
    hacInit sAgents sEnvP sSched sVis (.perLevel [sSteps]) =
      .error (.listLengthMismatch, sAgents) :=
  ⟨by decide,
   (hac_C3_duration_list_length_check sAgents sEnvP sSched sVis [sSteps]).1
     (by decide)⟩

/-- C4 counterexample: with a single agent configuration whose input filter
is unset, construction raises the fewer-than-two-levels error, but at that
moment the agent configuration has already been mutated: its visualization
was overwritten and its input filter now holds a freshly instantiated
environment default — contradicting the claim that both errors are raised
before any instantiation or mutation. -/
theorem hac_C4_counterexample :
    hacInit [sAgentTop] sEnvP sSched sVis (.scalar sSteps) =
      .error (.tooFewLevels, [applyDefaults sVis sEnvP sAgentTop]) ∧
    (applyDefaults sVis sEnvP sAgentTop).input_filter =
      some sEnvP.default_input_filter ∧
    sAgentTop.input_filter = none ∧
    (applyDefaults sVis sEnvP sAgentTop).visualization ≠
      sAgentTop.visualization :=
  ⟨rfl, rfl, rfl, by decide⟩

/-- C4 (amended): the duration-list length mismatch error is raised before
any instantiation and before any mutation of the supplied agent
configurations; the fewer-than-two-levels error is raised before any
environment or agent instantiation, but only after every agent
configuration has been mutated by the default-filling loop (visualization
overwritten, unset filters back-filled with instantiated environment
defaults). -/
theorem hac_C4_amended (agents_params : List AgentParameters)
    (env_params : EnvironmentParameters) (schedule_params : ScheduleParameters)
    (vis_params : VisualizationParameters) (consecutive : StepsToRun)
    (ms : List AgentParameters) :
    (hacInit agents_params env_params schedule_params vis_params consecutive =
        .error (.listLengthMismatch, ms) → ms = agents_params) ∧
    (hacInit agents_params env_params schedule_params vis_params consecutive =
        .error (.tooFewLevels, ms) →
      ms = agents_params.map (applyDefaults vis_params env_params) ∧
      agents_params.length < 2) := by
  have step : ∀ stored,
      (hacInitDefaults agents_params env_params schedule_params vis_params
          stored = .error (.listLengthMismatch, ms) → ms = agents_params) ∧
      (hacInitDefaults agents_params env_params schedule_params vis_params
          stored = .error (.tooFewLevels, ms) →
        ms = agents_params.map (applyDefaults vis_params env_params) ∧
        agents_params.length < 2) := by
    intro stored
    constructor
    · intro hd
      simp only [hacInitDefaults] at hd
      split at hd
      · simp at hd
      · simp at hd
    · intro hd
      simp only [hacInitDefaults] at hd
      split at hd
      · rename_i hlt
        simp at hd
        exact ⟨hd.symm, hlt⟩
      · simp at hd
  cases consecutive with
  | scalar s => exact step (some s)
  | perLevel l =>
    by_cases hl : l.length = agents_params.length
    · constructor
      · intro hd
        refine (step none).1 ?_
        simpa [hacInit, hl] using hd
      · intro hd
        refine (step none).2 ?_
        simpa [hacInit, hl] using hd
    · constructor
      · intro hd
        simp only [hacInit, if_pos hl] at hd
        simp at hd
        exact hd.symm
      · intro hd
        simp only [hacInit, if_pos hl] at hd
        simp at hd
  | otherValue => exact step none

theorem hac_C4_witness :
    hacInit [sAgentTop] sEnvP sSched sVis (.scalar sSteps) =
      .error (.tooFewLevels, [applyDefaults sVis sEnvP sAgentTop]) ∧
    [applyDefaults sVis sEnvP sAgentTop] =
      [sAgentTop].map (applyDefaults sVis sEnvP) ∧
    ([sAgentTop] : List AgentParameters).length < 2 :=
  ⟨rfl,
   (hac_C4_amended [sAgentTop] sEnvP sSched sVis (.scalar sSteps)
     [applyDefaults sVis sEnvP sAgentTop]).2 rfl⟩

/-- C5: for every valid hierarchy with N agent configurations (N ≥ 2) whose
graph construction returns, the level-manager list has exactly N entries
ordered top level first (entry i is named `level_i`); the bottom entry's
lower environment is the true environment, and every other entry's lower
environment is the level manager of the level directly beneath it. -/
theorem hac_C5_hierarchy_structure (agents_params : List AgentParameters)
    (env_params : EnvironmentParameters) (schedule_params : ScheduleParameters)
    (vis_params : VisualizationParameters) (consecutive : StepsToRun)
    (m : HACGraphManager) (tp : TaskParameters) (lms : List LevelManager)
    (envs : List Environment)
    (hinit : hacInit agents_params env_params schedule_params vis_params
      consecutive = .ok m)
    (hcg : createGraph m tp = .ok (lms, envs)) :
    lms.length = agents_params.length ∧ 2 ≤ agents_params.length ∧
    ∀ i lm, lms[i]? = some lm →
      lm.name = "level_" ++ toString i ∧
      lm.environment = (match lms[i + 1]? with
        | some lm2 => Sum.inr lm2
        | none => Sum.inl (instantiateEnv m)) := by
  obtain ⟨_, _, _, hagents, _, hlen2⟩ :=
    hacInit_ok_spec _ _ _ _ _ _ hinit
  obtain ⟨henvs, hlen, hprops⟩ := createGraph_ok_spec m tp lms envs hcg
  refine ⟨?_, hlen2, fun i lm hi =>
    ⟨(hprops i lm hi).2.2.2.1, (hprops i lm hi).2.2.2.2⟩⟩
  rw [hlen, hagents, List.length_map]

theorem hac_C5_witness :
    hacInit sAgents sEnvP sSched sVis (.scalar sSteps) = .ok sM ∧
    createGraph sM sTask = .ok (sLMs, [instantiateEnv sM]) ∧
    sLMs.length = sAgents.length :=
  ⟨rfl, rfl,
   (hac_C5_hierarchy_structure sAgents sEnvP sSched sVis (.scalar sSteps)
     sM sTask sLMs [instantiateEnv sM] rfl rfl).1⟩

/-- C6: after a successful construction, every agent configuration's
visualization is the shared visualization configuration; its input
(respectively output) filter equals the environment's default when it was
unset beforehand and its explicit value otherwise, and is non-null either
way. -/
theorem hac_C6_filter_defaults (agents_params : List AgentParameters)
    (env_params : EnvironmentParameters) (schedule_params : ScheduleParameters)
    (vis_params : VisualizationParameters) (consecutive : StepsToRun)
    (m : HACGraphManager)
    (hinit : hacInit agents_params env_params schedule_params vis_params
      consecutive = .ok m) :
    m.agents_params.length = agents_params.length ∧
    ∀ (i : Nat) (a a2 : AgentParameters), agents_params[i]? = some a →
      m.agents_params[i]? = some a2 →
      a2.visualization = some vis_params ∧
      a2.input_filter =
        some (a.input_filter.getD env_params.default_input_filter) ∧
      a2.output_filter =
        some (a.output_filter.getD env_params.default_output_filter) := by
  obtain ⟨_, _, _, hagents, _, _⟩ := hacInit_ok_spec _ _ _ _ _ _ hinit
  constructor
  · rw [hagents, List.length_map]
  · intro i a a2 ha ha2
    rw [hagents, List.getElem?_map, ha] at ha2
    simp only [Option.map_some'] at ha2
    injection ha2 with ha2
    subst ha2
    exact ⟨applyDefaults_visualization vis_params env_params a,
      applyDefaults_input vis_params env_params a,
      applyDefaults_output vis_params env_params a⟩

theorem hac_C6_witness :
    hacInit sAgents sEnvP sSched sVis (.scalar sSteps) = .ok sM ∧
    sM.agents_params.length = sAgents.length :=
  ⟨rfl,
   (hac_C6_filter_defaults sAgents sEnvP sSched sVis (.scalar sSteps)
     sM rfl).1⟩

/-- C7: for every valid hierarchy construction that returns, the
reset-agent-state-after-time-limit flag of the level manager at position i
is true exactly when i > 0: true for every level except the topmost, false
for the topmost (level index 0). -/
theorem hac_C7_reset_flags (agents_params : List AgentParameters)
    (env_params : EnvironmentParameters) (schedule_params : ScheduleParameters)
    (vis_params : VisualizationParameters) (consecutive : StepsToRun)
    (m : HACGraphManager) (tp : TaskParameters) (lms : List LevelManager)
    (envs : List Environment)
    (hinit : hacInit agents_params env_params schedule_params vis_params
      consecutive = .ok m)
    (hcg : createGraph m tp = .ok (lms, envs)) :
    ∀ i lm, lms[i]? = some lm →
      lm.should_reset_agent_state_after_time_limit_passes = decide (0 < i) :=
  fun i lm hi => ((createGraph_ok_spec m tp lms envs hcg).2.2 i lm hi).2.1

theorem hac_C7_witness :
    hacInit sAgents sEnvP sSched sVis (.scalar sSteps) = .ok sM ∧
    createGraph sM sTask = .ok (sLMs, [instantiateEnv sM]) ∧
    sLMs[0]? = some sLM0 ∧ sLMs[1]? = some sLM1 ∧
    sLM0.should_reset_agent_state_after_time_limit_passes = decide (0 < 0) ∧
    sLM1.should_reset_agent_state_after_time_limit_passes = decide (0 < 1) :=
  ⟨rfl, rfl, rfl, rfl,
   hac_C7_reset_flags sAgents sEnvP sSched sVis (.scalar sSteps)
     sM sTask sLMs [instantiateEnv sM] rfl rfl 0 sLM0 rfl,
   hac_C7_reset_flags sAgents sEnvP sSched sVis (.scalar sSteps)
     sM sTask sLMs [instantiateEnv sM] rfl rfl 1 sLM1 rfl⟩

/-- C8: for every valid hierarchy construction that returns, the returned
environment list is the singleton holding the instantiated environment, and
every level manager's root-environment reference is that same instance. -/
theorem hac_C8_single_environment (agents_params : List AgentParameters)
    (env_params : EnvironmentParameters) (schedule_params : ScheduleParameters)
    (vis_params : VisualizationParameters) (consecutive : StepsToRun)
    (m : HACGraphManager) (tp : TaskParameters) (lms : List LevelManager)
    (envs : List Environment)
    (hinit : hacInit agents_params env_params schedule_params vis_params
      consecutive = .ok m)
    (hcg : createGraph m tp = .ok (lms, envs)) :
    envs = [instantiateEnv m] ∧
    ∀ (i : Nat) (lm : LevelManager), lms[i]? = some lm →
      lm.real_environment = instantiateEnv m := by
  obtain ⟨henvs, _, hprops⟩ := createGraph_ok_spec m tp lms envs hcg
  exact ⟨henvs, fun i lm hi => (hprops i lm hi).1⟩

theorem hac_C8_witness :
    hacInit sAgents sEnvP sSched sVis (.scalar sSteps) = .ok sM ∧
    createGraph sM sTask = .ok (sLMs, [instantiateEnv sM]) ∧
    sLMs[0]? = some sLM0 ∧
    sLM0.real_environment = instantiateEnv sM :=
  ⟨rfl, rfl, rfl,
   (hac_C8_single_environment sAgents sEnvP sSched sVis (.scalar sSteps)
     sM sTask sLMs [instantiateEnv sM] rfl rfl).2 0 sLM0 rfl⟩

/-- C9: a per-level duration value that is neither a list nor an
`EnvironmentSteps` raises no error from the duration dispatch (the only
possible failure is the unrelated fewer-than-two-levels check, and with at
least two levels construction completes), and
`consecutive_steps_to_run_non_top_levels` remains unset after
construction. -/
theorem hac_C9_other_duration_ignored (agents_params : List AgentParameters)
    (env_params : EnvironmentParameters) (schedule_params : ScheduleParameters)
    (vis_params : VisualizationParameters) :
    (∀ ms, hacInit agents_params env_params schedule_params vis_params
        .otherValue ≠ .error (.listLengthMismatch, ms)) ∧
    (∀ m, hacInit agents_params env_params schedule_params vis_params
        .otherValue = .ok m →
      m.consecutive_steps_to_run_non_top_levels = none) ∧
    (2 ≤ agents_params.length →
      hacInit agents_params env_params schedule_params vis_params
        .otherValue = .ok
          { name := "hac_graph"
            schedule_params := schedule_params
            visualization_parameters := vis_params
            agents_params :=
              agents_params.map (applyDefaults vis_params env_params)
            env_params := env_params
            should_test_current_sub_goal := none
            consecutive_steps_to_run_non_top_levels := none }) := by
  refine ⟨?_, ?_, ?_⟩
  · intro ms hcontra
    simp only [hacInit, hacInitDefaults] at hcontra
    split at hcontra
    · simp at hcontra
    · simp at hcontra
  · intro m hm
    simp only [hacInit, hacInitDefaults] at hm
    split at hm
    · simp at hm
    · injection hm with hm
      subst hm
      rfl
  · intro h2
    simp [hacInit, hacInitDefaults, Nat.not_lt.mpr h2]

theorem hac_C9_witness :
    2 ≤ sAgents.length ∧
    hacInit sAgents sEnvP sSched sVis .otherValue = .ok
      { name := "hac_graph"
        schedule_params := sSched
        visualization_parameters := sVis
        agents_params := sAgents.map (applyDefaults sVis sEnvP)
        env_params := sEnvP
        should_test_current_sub_goal := none
        consecutive_steps_to_run_non_top_levels := none } :=
  ⟨by decide,
   (hac_C9_other_duration_ignored sAgents sEnvP sSched sVis).2.2 (by decide)⟩

/-- C10 (implicit): a per-level duration supplied as a list of matching
length passes validation and construction completes, but
`consecutive_steps_to_run_non_top_levels` is never assigned, so the
subsequent graph construction fails when the step budget for a non-top
level reads the missing attribute. -/
theorem hac_C10_matching_list_unset_field (agents_params : List AgentParameters)
    (env_params : EnvironmentParameters) (schedule_params : ScheduleParameters)
    (vis_params : VisualizationParameters) (l : List EnvironmentSteps)
    (tp : TaskParameters)
    (hlen : l.length = agents_params.length)
    (h2 : 2 ≤ agents_params.length) :
    ∃ m, hacInit agents_params env_params schedule_params vis_params
        (.perLevel l) = .ok m ∧
      m.consecutive_steps_to_run_non_top_levels = none ∧
      createGraph m tp = .error .missingConsecutiveSteps := by
  refine ⟨{ name := "hac_graph"
            schedule_params := schedule_params
            visualization_parameters := vis_params
            agents_params :=
              agents_params.map (applyDefaults vis_params env_params)
            env_params := env_params
            should_test_current_sub_goal := none
            consecutive_steps_to_run_non_top_levels := none }, ?_, rfl, ?_⟩
  · simp [hacInit, hacInitDefaults, hlen, Nat.not_lt.mpr h2]
  · exact createGraph_missing_attribute _ tp rfl
      (by simpa using h2)

theorem hac_C10_witness :
    ([sSteps, sSteps] : List EnvironmentSteps).length = sAgents.length ∧
    2 ≤ sAgents.length ∧
    ∃ m, hacInit sAgents sEnvP sSched sVis (.perLevel [sSteps, sSteps]) =
        .ok m ∧
      m.consecutive_steps_to_run_non_top_levels = none ∧
      createGraph m sTask = .error .missingConsecutiveSteps :=
  ⟨by decide, by decide,
   hac_C10_matching_list_unset_field sAgents sEnvP sSched sVis
     [sSteps, sSteps] sTask (by decide) (by decide)⟩

/-- C1: the claim says the step budget of the topmost level manager is one
environment step (true: see the first two conjuncts, evaluated on the
scalar-duration sample) and that each non-top level receives its entry of a
per-level duration list when a list was supplied.  The code contradicts
this (and its own docstring, which promises list support): the matching
per-level list passes validation but is never stored, so graph construction
fails with an attribute error instead of using the list entries.  The last
three conjuncts evaluate the code at that failing input. -/
theorem hac_C1_step_budget_defect :
    sLMs[0]?.map LevelManager.steps_limit = some { num_steps := 1 } ∧
    sLMs[1]?.map LevelManager.steps_limit = some sSteps ∧
    hacInit sAgents sEnvP sSched sVis (.perLevel [sSteps, sSteps]) =
      .ok c1M ∧
    c1M.consecutive_steps_to_run_non_top_levels = none ∧
    createGraph c1M sTask = .error .missingConsecutiveSteps :=
  ⟨rfl, rfl, rfl, rfl, rfl⟩

end RLCoach

